import Mathlib

/-!
# BidLord browser helpers (`static/js/main.js`)

A shallow embedding of the page script: the health check that drives the
status indicators, and the `BidLord.api` request helpers.

Modelling conventions

* JavaScript values are plain data (`JSValue`): no getters, no prototype
  chains beyond the standard ones, no symbols.  An object is the list of its
  own enumerable data properties in enumeration order; a lookup reads the
  first binding of a key.
* Numbers are integers in the safe range (`num n` with `|n| < 2^53`), strings
  are sequences of code points.
* A promise is represented by the way it settles: `Except.ok v` is
  fulfilment with `v`, `Except.error e` is rejection with reason `e`.
  Asynchronous code is run to completion, threading the page state `World`.
* The network is a parameter: `Network` maps the arguments of a `fetch` call
  to the way that call settles.
* The document is the list of its HTML elements in tree order.

The formatting helpers `BidLord.utils.formatCurrency` and `formatDate` are
single calls into the host's `Intl` formatters on floating-point numbers and
dates; they are not embedded.
-/

set_option autoImplicit false

/-! ## JavaScript values -/

/-- Plain JavaScript data. `err name` is a runtime error object such as a
`TypeError`; it has no enumerable own property. -/
inductive JSValue where
  | undefined : JSValue
  | null : JSValue
  | bool (b : Bool) : JSValue
  | num (n : Int) : JSValue
  | str (s : String) : JSValue
  | arr (items : List JSValue) : JSValue
  | obj (props : List (String × JSValue)) : JSValue
  | err (name : String) : JSValue

/-- Own enumerable data properties of an object, in enumeration order. -/
abbrev JSObject := List (String × JSValue)

namespace JS

/-- The way a promise settles: fulfilled with a value or rejected with a reason. -/
abbrev Settled (α : Type) := Except JSValue α

/-- Own property lookup in a property list (first binding of the key). -/
def getOwnProperty : JSObject → String → Option JSValue
  | [], _ => none
  | (k, v) :: rest, key => if k = key then some v else getOwnProperty rest key

/-- Define or overwrite the own data property `key`: an existing key keeps its
place and takes the new value, a new key is added at the end.  (An engine
enumerates integer-like keys first; that reordering is not modelled, and the
properties below read objects through lookups.) -/
def createDataProperty : JSObject → String → JSValue → JSObject
  | [], key, v => [(key, v)]
  | (k, x) :: rest, key, v =>
    if k = key then (k, v) :: rest else (k, x) :: createDataProperty rest key v

/-- Pair the items of a list with their index keys, counting from `i`. -/
def indexedFrom {α : Type} : Nat → List α → List (String × α)
  | _, [] => []
  | i, x :: xs => (toString i, x) :: indexedFrom (i + 1) xs

/-- Own enumerable properties of a value, as seen by an object spread:
objects give their properties, arrays and strings their indexed items,
every other value gives none. -/
def ownEntries : JSValue → JSObject
  | .obj props => props
  | .arr items => indexedFrom 0 items
  | .str s => indexedFrom 0 (s.toList.map (fun c => JSValue.str (String.singleton c)))
  | _ => []

/-- Own enumerable property keys of a value. -/
def ownKeys (v : JSValue) : List String := (ownEntries v).map Prod.fst

/-- Own enumerable property `key` of a value, if it has one. -/
def getOwn (v : JSValue) (key : String) : Option JSValue :=
  getOwnProperty (ownEntries v) key

/-- Spread `...source` inside an object literal whose properties so far are
`target`: every own enumerable key of `source` is read and defined on the
target, in order.  Spreading `undefined`, `null`, a number or a boolean
copies nothing. -/
def copyDataProperties (target : JSObject) (source : JSValue) : JSObject :=
  (ownKeys source).foldl
    (fun acc key => createDataProperty acc key ((getOwn source key).getD JSValue.undefined))
    target

/-- Property read `v.key`.  Reading a property of `undefined` or `null`
throws a `TypeError`; otherwise the own property, or `undefined`.  Inherited
and non-enumerable properties are outside the model (the script only reads
`headers`). -/
def readProperty (v : JSValue) (key : String) : Except JSValue JSValue :=
  match v with
  | .undefined => .error (.err "TypeError")
  | .null => .error (.err "TypeError")
  | _ => .ok ((getOwn v key).getD JSValue.undefined)

/-! ### `JSON.stringify` on plain data -/

/-- Four lower-case hexadecimal digits of a code unit. -/
def hex4 (n : Nat) : String :=
  String.mk ((List.replicate 4 (Char.ofNat 48) ++ Nat.toDigits 16 n).reverse.take 4).reverse

/-- The JSON escape of one code point inside a string literal. -/
def escapeChar (c : Char) : String :=
  if c.toNat = 8 then "\\b"
  else if c.toNat = 9 then "\\t"
  else if c.toNat = 10 then "\\n"
  else if c.toNat = 12 then "\\f"
  else if c.toNat = 13 then "\\r"
  else if c.toNat = 34 then "\\\""
  else if c.toNat = 92 then "\\\\"
  else if c.toNat < 32 then "\\u" ++ hex4 c.toNat
  else String.singleton c

/-- A string as a JSON string literal. -/
def quoteJSONString (s : String) : String :=
  "\"" ++ String.join (s.toList.map escapeChar) ++ "\""

mutual
/-- Serialisation of a value; `none` where `JSON.stringify` gives `undefined`. -/
def serializeJSONProperty : JSValue → Option String
  | .undefined => none
  | .null => some "null"
  | .bool b => some (if b then "true" else "false")
  | .num n => some (toString n)
  | .str s => some (quoteJSONString s)
  | .arr items => some ("[" ++ ",".intercalate (serializeJSONArray items) ++ "]")
  | .obj props => some ("\x7b" ++ ",".intercalate (serializeJSONObject props) ++ "\x7d")
  | .err _ => some "\x7b\x7d"
/-- Items of an array: an item without serialisation is written `null`. -/
def serializeJSONArray : List JSValue → List String
  | [] => []
  | x :: xs => (serializeJSONProperty x).getD "null" :: serializeJSONArray xs
/-- Members of an object: a property without serialisation is left out. -/
def serializeJSONObject : List (String × JSValue) → List String
  | [] => []
  | (k, v) :: rest =>
    match serializeJSONProperty v with
    | none => serializeJSONObject rest
    | some s => (quoteJSONString k ++ ":" ++ s) :: serializeJSONObject rest
end

/-- The builtin `JSON.stringify(value)` on plain data: the JSON text, or
`undefined` when the value has no serialisation. -/
def JSON_stringify (v : JSValue) : JSValue :=
  match serializeJSONProperty v with
  | none => .undefined
  | some s => .str s

/-! ## The page: document, console, network -/

/-- An HTML element of the document; `className` reflects its `class` attribute. -/
structure Element where
  tag : String
  id : String
  className : String
deriving DecidableEq, Repr

/-- One console call: the method (`log`, `error`) and its arguments. -/
structure ConsoleEntry where
  level : String
  args : List JSValue

/-- One call of `fetch`: the resource and the init object. -/
structure FetchCall where
  url : String
  config : JSValue

/-- The observable page state. -/
structure World where
  dom : List Element
  console : List ConsoleEntry
  fetched : List FetchCall

/-- A received HTTP response: its status code and the way `response.json()`
settles (the parsed body, or the parse error). -/
structure Response where
  status : Nat
  json : Settled JSValue

/-- The network behind `fetch`: how a call with a resource and an init object
settles (a response of any status, or a rejection). -/
abbrev Network := String → JSValue → Settled Response

/-- An asynchronous computation run to completion on the page state. -/
abbrev Async (α : Type) := World → Settled α × World

/-- The call `fetch(url, config)`: recorded, then settled by the network. -/
def fetch (net : Network) (url : String) (config : JSValue) : Async Response :=
  fun w => (net url config, { w with fetched := w.fetched ++ [FetchCall.mk url config] })

/-- The call `response.json()`. -/
def Response.jsonTask (r : Response) : Async JSValue :=
  fun w => (r.json, w)

/-- The promise `p.then(onFulfilled)`: a fulfilment value goes through the
callback, whose own outcome settles the new promise; a rejection passes on. -/
def thenP {α β : Type} (p : Async α) (onFulfilled : α → Async β) : Async β :=
  fun w =>
    match p w with
    | (.ok v, w1) => onFulfilled v w1
    | (.error e, w1) => (.error e, w1)

/-- The promise `p.catch(onRejected)`: a rejection reason goes through the
callback, whose own outcome settles the new promise; a fulfilment passes on. -/
def catchP {α : Type} (p : Async α) (onRejected : JSValue → Async α) : Async α :=
  fun w =>
    match p w with
    | (.ok v, w1) => (.ok v, w1)
    | (.error e, w1) => onRejected e w1

/-- The call `console[level](...args)`. -/
def consoleCall (level : String) (args : List JSValue) (w : World) : World :=
  { w with console := w.console ++ [ConsoleEntry.mk level args] }

/-- ASCII whitespace, the separator of class names. -/
def isAsciiWhitespace (c : Char) : Bool :=
  c.toNat = 9 || c.toNat = 10 || c.toNat = 12 || c.toNat = 13 || c.toNat = 32

/-- Split on ASCII whitespace; `cur` is the token being read. -/
def splitTokens : List Char → List Char → List String
  | [], cur => if cur = [] then [] else [String.mk cur]
  | c :: cs, cur =>
    if isAsciiWhitespace c then
      (if cur = [] then splitTokens cs [] else String.mk cur :: splitTokens cs [])
    else splitTokens cs (cur ++ [c])

/-- The class names of a `class` attribute value. -/
def classTokens (className : String) : List String :=
  splitTokens className.toList []

/-- Whether the element matches the class selector `.cls` (case-sensitive, as
in a standards-mode document). -/
def matchesClass (cls : String) (el : Element) : Bool :=
  decide (cls ∈ classTokens el.className)

/-- The call `document.querySelectorAll('.' + cls)` for a class name `cls`: the
static list of the matching elements, as positions in the document. -/
def querySelectorAllClass (dom : List Element) (cls : String) : List Nat :=
  (List.range dom.length).filter (fun i => (dom[i]?).any (matchesClass cls))

/-- The assignment `element.className = value` on the element at position `i`. -/
def setClassName (i : Nat) (value : String) (w : World) : World :=
  { w with dom := w.dom.modify (fun el => { el with className := value }) i }

end JS

open JS

/-! ## The script -/

/-- Source: `updateHealthStatus(isHealthy)`. -/
def updateHealthStatus (isHealthy : Bool) (w : World) : World :=
  let statusIndicators := querySelectorAllClass w.dom "status-indicator"
  statusIndicators.foldl
    (fun acc indicator =>
      setClassName indicator
        (if isHealthy then "status-indicator status-online"
         else "status-indicator status-offline") acc)
    w

/-- The promise chain built by the body of `checkApiHealth`:
`fetch(..).then(response => response.json()).then(data => ..).catch(error => ..)`. -/
def checkApiHealthChain (net : Network) : Async JSValue :=
  catchP
    (thenP
      (thenP (fetch net "/api/v1/accounts/health/" JSValue.undefined)
        (fun response => response.jsonTask))
      (fun data w =>
        let w1 := consoleCall "log" [JSValue.str "API Health:", data] w
        (.ok JSValue.undefined, updateHealthStatus true w1)))
    (fun error w =>
      let w1 := consoleCall "error" [JSValue.str "API Health Check Failed:", error] w
      (.ok JSValue.undefined, updateHealthStatus false w1))

/-- Source: `checkApiHealth()`.  The function starts the chain, drops the
promise and returns `undefined`; the page state is the one reached when the
chain has settled. -/
def checkApiHealth (net : Network) : Async JSValue :=
  fun w => (.ok JSValue.undefined, (checkApiHealthChain net w).2)

namespace BidLord.api

/-- Source: `baseUrl`. -/
def baseUrl : String := "/api/v1"

/-- The object bound to `config` in `request`:
`{ headers: { 'Content-Type': 'application/json', ...options.headers }, ...options }`. -/
def requestConfig (options : JSValue) : Except JSValue JSValue :=
  match readProperty options "headers" with
  | .error e => .error e
  | .ok callerHeaders =>
    .ok (.obj
      (copyDataProperties
        [("headers",
          JSValue.obj
            (copyDataProperties
              [("Content-Type", JSValue.str "application/json")] callerHeaders))]
        options))

/-- The default parameter `options = {}`: an omitted or `undefined` argument
takes the default, every other value is kept. -/
def optionsOrDefault (options : JSValue) : JSValue :=
  match options with
  | .undefined => JSValue.obj []
  | o => o

/-- Source: `async request(endpoint, options = {})`.  An exception thrown in
the body rejects the returned promise. -/
def request (net : Network) (endpoint : String) (options : JSValue) : Async JSValue :=
  fun w =>
    let options := optionsOrDefault options
    let url := baseUrl ++ endpoint
    match requestConfig options with
    | .error e => (.error e, w)
    | .ok config =>
      match fetch net url config w with
      | (.error e, w1) => (.error e, w1)
      | (.ok response, w1) => response.jsonTask w1

/-- Source: `async get(endpoint)`. -/
def get (net : Network) (endpoint : String) : Async JSValue :=
  request net endpoint JSValue.undefined

/-- Source: `async post(endpoint, data)`. -/
def post (net : Network) (endpoint : String) (data : JSValue) : Async JSValue :=
  request net endpoint
    (.obj [("method", JSValue.str "POST"), ("body", JSON_stringify data)])

end BidLord.api

open BidLord.api

/-! ## Outcomes of the health check, and sample data -/

/-- The class string written for a health state. -/
def statusClass (isHealthy : Bool) : String :=
  if isHealthy then "status-indicator status-online" else "status-indicator status-offline"

/-- An element after the update: a status indicator takes the class string of
the health state, every other element is left as it is. -/
def markIndicator (isHealthy : Bool) (el : Element) : Element :=
  if matchesClass "status-indicator" el then { el with className := statusClass isHealthy }
  else el

/-- Whether the health call succeeded: `fetch` resolved and the body parsed. -/
def healthSucceeded (net : Network) : Bool :=
  match net "/api/v1/accounts/health/" JSValue.undefined with
  | .ok response =>
    (match response.json with
     | .ok _ => true
     | .error _ => false)
  | .error _ => false

/-- A small document: two status indicators and one other element. -/
def sampleWorld : World :=
  { dom := [Element.mk "span" "api-status" "status-indicator",
            Element.mk "div" "main" "container",
            Element.mk "span" "badge" "badge status-indicator status-offline"],
    console := [],
    fetched := [] }

/-- A response of status 200 with a JSON body. -/
def healthyResponse : Response :=
  { status := 200, json := .ok (.obj [("status", .str "healthy")]) }

/-- A response of status 500 with a JSON body. -/
def serverErrorResponse : Response :=
  { status := 500, json := .ok (.obj [("detail", .str "Server Error")]) }

/-- A response of status 502 whose body is not JSON. -/
def badGatewayResponse : Response :=
  { status := 502, json := .error (.err "SyntaxError") }

/-- A network that answers every call with `healthyResponse`. -/
def healthyNet : Network := fun _ _ => .ok healthyResponse

/-- A network that answers every call with `serverErrorResponse`. -/
def serverErrorNet : Network := fun _ _ => .ok serverErrorResponse

/-- A network that answers every call with `badGatewayResponse`. -/
def badGatewayNet : Network := fun _ _ => .ok badGatewayResponse

/-- A network on which every call is rejected. -/
def offlineNet : Network := fun _ _ => .error (.err "TypeError")

/-! ## Properties of objects and of the spread -/

theorem getOwnProperty_createDataProperty_self (o : JSObject) (key : String) (v : JSValue) :
    getOwnProperty (createDataProperty o key v) key = some v := by
  induction o with
  | nil => simp [createDataProperty, getOwnProperty]
  | cons p rest ih =>
    obtain ⟨k, x⟩ := p
    by_cases h : k = key
    · simp [createDataProperty, getOwnProperty, h]
    · simp [createDataProperty, getOwnProperty, h, ih]

theorem getOwnProperty_createDataProperty_ne (o : JSObject) (key other : String) (v : JSValue)
    (hne : other ≠ key) :
    getOwnProperty (createDataProperty o key v) other = getOwnProperty o other := by
  induction o with
  | nil =>
    have h : ¬ key = other := fun h => hne h.symm
    simp [createDataProperty, getOwnProperty, h]
  | cons p rest ih =>
    obtain ⟨k, x⟩ := p
    by_cases h : k = key
    · subst h
      have h2 : ¬ k = other := fun h => hne h.symm
      simp [createDataProperty, getOwnProperty, h2]
    · by_cases h2 : k = other
      · subst h2
        simp [createDataProperty, getOwnProperty, h]
      · simp [createDataProperty, getOwnProperty, h, h2, ih]

/-- Defining a run of keys, each with the value `f` gives it: afterwards a key
of the run holds its `f` value and every other key is untouched. -/
theorem getOwnProperty_foldl_createDataProperty (f : String → JSValue) (keys : List String)
    (target : JSObject) (key : String) :
    getOwnProperty (keys.foldl (fun acc k => createDataProperty acc k (f k)) target) key
      = if key ∈ keys then some (f key) else getOwnProperty target key := by
  induction keys generalizing target with
  | nil => simp
  | cons k rest ih =>
    rw [List.foldl_cons, ih]
    by_cases h1 : key ∈ rest
    · simp [h1]
    · by_cases h2 : key = k
      · subst h2
        simp [h1, getOwnProperty_createDataProperty_self]
      · simp [h1, h2, getOwnProperty_createDataProperty_ne _ _ _ _ h2]

theorem mem_keys_iff_getOwnProperty (o : JSObject) (key : String) :
    key ∈ o.map Prod.fst ↔ ∃ v, getOwnProperty o key = some v := by
  induction o with
  | nil => simp [getOwnProperty]
  | cons p rest ih =>
    obtain ⟨k, x⟩ := p
    by_cases h : k = key
    · simp [getOwnProperty, h]
    · have h2 : ¬ key = k := fun e => h e.symm
      simp [getOwnProperty, h, h2, ih]

/-- What a spread leaves under a key: the source value if the source has the
key, the previous value otherwise. -/
theorem getOwnProperty_copyDataProperties (target : JSObject) (source : JSValue) (key : String) :
    getOwnProperty (copyDataProperties target source) key
      = match getOwn source key with
        | some v => some v
        | none => getOwnProperty target key := by
  unfold copyDataProperties
  rw [getOwnProperty_foldl_createDataProperty
    (fun k => (getOwn source k).getD JSValue.undefined)]
  cases hg : getOwn source key with
  | none =>
    have hnot : key ∉ ownKeys source := by
      intro hmem
      obtain ⟨v, hv⟩ := (mem_keys_iff_getOwnProperty _ _).1 hmem
      simp [getOwn, hv] at hg
    simp [hnot]
  | some v =>
    have hmem : key ∈ ownKeys source :=
      (mem_keys_iff_getOwnProperty _ _).2 ⟨v, hg⟩
    simp [hmem]

/-! ## Properties of `request` -/

/-- The only way `config` is built: from the caller's `headers` value and the
caller's options. -/
theorem requestConfig_ok (options config : JSValue)
    (h : requestConfig options = .ok config) :
    config = .obj
      (copyDataProperties
        [("headers",
          JSValue.obj
            (copyDataProperties
              [("Content-Type", JSValue.str "application/json")]
              ((getOwn options "headers").getD JSValue.undefined)))]
        options) := by
  cases options <;> simp [requestConfig, readProperty] at h <;> exact h.symm

/-- A key of `config` holds the caller's value when the caller's options have
the key; otherwise only `headers` is there, holding the merged headers. -/
theorem getOwn_requestConfig (options config : JSValue)
    (h : requestConfig options = .ok config) (key : String) :
    getOwn config key
      = match getOwn options key with
        | some v => some v
        | none =>
          if key = "headers" then
            some (JSValue.obj
              (copyDataProperties
                [("Content-Type", JSValue.str "application/json")]
                ((getOwn options "headers").getD JSValue.undefined)))
          else none := by
  rw [requestConfig_ok options config h]
  show getOwnProperty (copyDataProperties _ options) key = _
  rw [getOwnProperty_copyDataProperties]
  cases getOwn options key with
  | some v => rfl
  | none =>
    by_cases hk : key = "headers"
    · subst hk
      simp [getOwnProperty]
    · have hk2 : ¬ "headers" = key := fun e => hk e.symm
      simp [getOwnProperty, hk, hk2]

/-- A run of `request` whose `config` could be built: one `fetch` call is
recorded, and the returned promise settles as the call and the body parse do. -/
theorem request_run (net : Network) (endpoint : String) (options config : JSValue) (w : World)
    (h : requestConfig (optionsOrDefault options) = .ok config) :
    (request net endpoint options w).2.fetched
        = w.fetched ++ [FetchCall.mk (baseUrl ++ endpoint) config]
      ∧ (request net endpoint options w).1
        = (match net (baseUrl ++ endpoint) config with
           | .error e => .error e
           | .ok response => response.json) := by
  unfold request
  simp only [h, fetch, Response.jsonTask]
  cases net (baseUrl ++ endpoint) config <;> simp

/-- A recorded `fetch` call of `request` carries the `config` built from the
options and the URL built from the endpoint. -/
theorem request_fetched_inv (net : Network) (endpoint : String) (options : JSValue) (w : World)
    (call : FetchCall)
    (h : (request net endpoint options w).2.fetched = w.fetched ++ [call]) :
    requestConfig (optionsOrDefault options) = .ok call.config
      ∧ call.url = baseUrl ++ endpoint := by
  cases hc : requestConfig (optionsOrDefault options) with
  | error e =>
    exfalso
    unfold request at h
    simp [hc] at h
  | ok config =>
    have hrun := (request_run net endpoint options config w hc).1
    rw [hrun] at h
    have := List.append_cancel_left h
    simp at this
    subst this
    simp

/-! ## Properties of the health check -/

/-- Writing one class string at a run of positions: an element at a position
of the run gets the class string, every other element is untouched. -/
theorem foldl_setClassName_get? (value : String) (positions : List Nat) (w : World) (j : Nat) :
    (positions.foldl (fun acc i => setClassName i value acc) w).dom[j]?
      = (w.dom[j]?).map
          (fun el => if j ∈ positions then { el with className := value } else el) := by
  induction positions generalizing w with
  | nil => simp
  | cons i rest ih =>
    rw [List.foldl_cons, ih]
    simp only [setClassName, List.getElem?_modify]
    cases w.dom[j]? with
    | none => simp
    | some el =>
      by_cases h1 : j ∈ rest
      · by_cases h2 : i = j <;> simp [h1, h2]
      · by_cases h2 : i = j
        · simp [h1, h2]
        · have h3 : ¬ j = i := fun e => h2 e.symm
          simp [h1, h2, h3]

theorem mem_querySelectorAllClass (dom : List Element) (cls : String) (j : Nat) :
    j ∈ querySelectorAllClass dom cls
      ↔ ∃ el, dom[j]? = some el ∧ matchesClass cls el = true := by
  unfold querySelectorAllClass
  simp only [List.mem_filter, List.mem_range]
  constructor
  · rintro ⟨hlt, hany⟩
    refine ⟨dom[j], List.getElem?_eq_getElem hlt, ?_⟩
    simpa [List.getElem?_eq_getElem hlt] using hany
  · rintro ⟨el, hget, hm⟩
    have hlt : j < dom.length := by
      by_contra hge
      rw [List.getElem?_eq_none (Nat.le_of_not_lt hge)] at hget
      cases hget
    exact ⟨hlt, by simp [hget, hm]⟩

/-- The document after `updateHealthStatus`: every status indicator carries
the class string of the health state, everything else is unchanged. -/
theorem updateHealthStatus_dom (isHealthy : Bool) (w : World) :
    (updateHealthStatus isHealthy w).dom = w.dom.map (markIndicator isHealthy) := by
  apply List.ext_getElem?
  intro j
  unfold updateHealthStatus
  simp only []
  rw [foldl_setClassName_get?, List.getElem?_map]
  cases hj : w.dom[j]? with
  | none => rfl
  | some el =>
    simp only [Option.map_some']
    congr 1
    by_cases hm : matchesClass "status-indicator" el = true
    · have hmem : j ∈ querySelectorAllClass w.dom "status-indicator" :=
        (mem_querySelectorAllClass _ _ _).2 ⟨el, hj, hm⟩
      simp [hmem, markIndicator, hm, statusClass]
    · have hmem : j ∉ querySelectorAllClass w.dom "status-indicator" := by
        intro hin
        obtain ⟨el2, hget, hm2⟩ := (mem_querySelectorAllClass _ _ _).1 hin
        rw [hj] at hget
        cases hget
        exact hm hm2
      simp [hmem, markIndicator, hm]

/-- The document after the health check, in terms of the health outcome. -/
theorem checkApiHealth_dom (net : Network) (w : World) :
    (checkApiHealth net w).2.dom = w.dom.map (markIndicator (healthSucceeded net)) := by
  unfold checkApiHealth checkApiHealthChain catchP thenP fetch Response.jsonTask healthSucceeded
  cases hnet : net "/api/v1/accounts/health/" JSValue.undefined with
  | error e => simp [hnet, updateHealthStatus_dom, consoleCall]
  | ok response =>
    cases hjson : response.json with
    | error e => simp [hnet, hjson, updateHealthStatus_dom, consoleCall]
    | ok v => simp [hnet, hjson, updateHealthStatus_dom, consoleCall]

/-- Both class strings written by the update contain the indicator class. -/
theorem statusClass_tokens (isHealthy : Bool) :
    "status-indicator" ∈ classTokens (statusClass isHealthy) := by
  cases isHealthy <;> decide

/-- A marked element is a status indicator exactly when it was one before. -/
theorem matchesClass_markIndicator (isHealthy : Bool) (el : Element) :
    matchesClass "status-indicator" (markIndicator isHealthy el)
      = matchesClass "status-indicator" el := by
  unfold markIndicator
  by_cases hm : matchesClass "status-indicator" el = true
  · rw [if_pos hm, hm]
    simp only [matchesClass]
    exact decide_eq_true (statusClass_tokens isHealthy)
  · rw [if_neg hm]

/-- After marking, every status indicator carries the class string. -/
theorem className_of_mem_map_markIndicator (isHealthy : Bool) (dom : List Element) (el : Element)
    (hmem : el ∈ dom.map (markIndicator isHealthy))
    (hm : matchesClass "status-indicator" el = true) :
    el.className = statusClass isHealthy := by
  obtain ⟨old, _, rfl⟩ := List.mem_map.1 hmem
  rw [matchesClass_markIndicator] at hm
  simp [markIndicator, hm]

theorem getOwn_optionsOrDefault (options : JSValue) (key : String) :
    getOwn (optionsOrDefault options) key = getOwn options key := by
  cases options <;> rfl

/-! ## The claims -/

/-- C1: evaluation of `request('/x', { headers: { Authorization: 'A' } })`.
The configuration handed to `fetch` has the caller's headers object as its
`headers`, and that object has no `Content-Type` entry: the merged headers
built first are overwritten by the spread of the options. -/
theorem request_caller_headers_lose_default (net : Network) (w : World) :
    (request net "/x"
        (.obj [("headers", .obj [("Authorization", .str "A")])]) w).2.fetched
      = w.fetched ++
          [FetchCall.mk "/api/v1/x" (.obj [("headers", .obj [("Authorization", .str "A")])])]
    ∧ getOwn (.obj [("Authorization", .str "A")]) "Content-Type" = none
    ∧ getOwn (.obj [("Authorization", .str "A")]) "Authorization" = some (.str "A") := by
  refine ⟨?_, rfl, rfl⟩
  exact (request_run net "/x"
    (.obj [("headers", .obj [("Authorization", .str "A")])])
    (.obj [("headers", .obj [("Authorization", .str "A")])]) w rfl).1

/-- C2: `request(e)` with no options, or with an options object that has no
`headers` key, calls `fetch` once, on the URL `'/api/v1' ++ e`, with a
configuration whose `headers` is the object holding
`'Content-Type': 'application/json'`; and `request('/x')` calls `/api/v1/x`. -/
theorem request_default_headers (net : Network) (e : String) (options : JSValue) (w : World)
    (hopt : options = .undefined
      ∨ ∃ props, options = .obj props ∧ getOwnProperty props "headers" = none) :
    (∃ config headers,
      (request net e options w).2.fetched = w.fetched ++ [FetchCall.mk ("/api/v1" ++ e) config]
      ∧ getOwn config "headers" = some headers
      ∧ getOwn headers "Content-Type" = some (.str "application/json"))
    ∧ (request net "/x" .undefined w).2.fetched
        = w.fetched ++
            [FetchCall.mk "/api/v1/x"
              (.obj [("headers", .obj [("Content-Type", .str "application/json")])])] := by
  refine ⟨?_, (request_run net "/x" .undefined
    (.obj [("headers", .obj [("Content-Type", .str "application/json")])]) w rfl).1⟩
  refine ⟨.obj (copyDataProperties
      [("headers", .obj [("Content-Type", .str "application/json")])]
      (optionsOrDefault options)),
    .obj [("Content-Type", .str "application/json")], ?_, ?_, rfl⟩
  · rcases hopt with h | ⟨props, h, hno⟩
    · subst h
      exact (request_run net e .undefined
        (.obj [("headers", .obj [("Content-Type", .str "application/json")])]) w rfl).1
    · subst h
      have hcfg : requestConfig (optionsOrDefault (.obj props))
          = .ok (.obj (copyDataProperties
              [("headers", .obj [("Content-Type", .str "application/json")])]
              (optionsOrDefault (.obj props)))) := by
        simp [requestConfig, readProperty, optionsOrDefault, getOwn, ownEntries, hno,
          copyDataProperties, ownKeys]
      exact (request_run net e _ _ w hcfg).1
  · show getOwnProperty (copyDataProperties _ _) "headers" = _
    rw [getOwnProperty_copyDataProperties, getOwn_optionsOrDefault]
    have hnone : getOwn options "headers" = none := by
      rcases hopt with h | ⟨props, h, hno⟩
      · subst h; rfl
      · subst h; exact hno
    rw [hnone]
    rfl

/-- C3: `post(e, data)` calls `fetch` once, on `'/api/v1' ++ e`, with the
configuration made of the default headers (`Content-Type: application/json`),
method `POST` and body `JSON.stringify(data)`, whatever `e` and `data` are;
for `data = {a: 1}` the body is the text `{"a":1}`. -/
theorem post_config (net : Network) (e : String) (data : JSValue) (w : World) :
    (post net e data w).2.fetched
      = w.fetched ++
          [FetchCall.mk ("/api/v1" ++ e)
            (.obj [("headers", .obj [("Content-Type", .str "application/json")]),
                   ("method", .str "POST"),
                   ("body", JSON_stringify data)])]
    ∧ JSON_stringify (.obj [("a", .num 1)]) = .str "\x7b\"a\":1\x7d"
    ∧ (post net "/x" (.obj [("a", .num 1)]) w).2.fetched
      = w.fetched ++
          [FetchCall.mk "/api/v1/x"
            (.obj [("headers", .obj [("Content-Type", .str "application/json")]),
                   ("method", .str "POST"),
                   ("body", .str "\x7b\"a\":1\x7d")])] := by
  refine ⟨?_, rfl, ?_⟩
  · exact (request_run net e
      (.obj [("method", .str "POST"), ("body", JSON_stringify data)])
      (.obj [("headers", .obj [("Content-Type", .str "application/json")]),
             ("method", .str "POST"),
             ("body", JSON_stringify data)]) w rfl).1
  · exact (request_run net "/x"
      (.obj [("method", .str "POST"), ("body", JSON_stringify (.obj [("a", .num 1)]))])
      (.obj [("headers", .obj [("Content-Type", .str "application/json")]),
             ("method", .str "POST"),
             ("body", .str "\x7b\"a\":1\x7d")]) w rfl).1

/-- C4: when the health call resolves and its body parses as JSON, the
document after `checkApiHealth` is the old one with the class string of every
`.status-indicator` element replaced by `status-indicator status-online`
(whatever it was) and every other element unchanged; so every element that
matches `.status-indicator` afterwards has exactly that class string. -/
theorem checkApiHealth_success_marks_online (net : Network) (w : World)
    (response : Response) (data : JSValue)
    (hfetch : net "/api/v1/accounts/health/" JSValue.undefined = .ok response)
    (hjson : response.json = .ok data) :
    (checkApiHealth net w).2.dom
      = w.dom.map (fun el =>
          if matchesClass "status-indicator" el
          then { el with className := "status-indicator status-online" }
          else el)
    ∧ ∀ el ∈ (checkApiHealth net w).2.dom,
        matchesClass "status-indicator" el = true →
          el.className = "status-indicator status-online" := by
  have hs : healthSucceeded net = true := by
    simp [healthSucceeded, hfetch, hjson]
  have hdom := checkApiHealth_dom net w
  rw [hs] at hdom
  refine ⟨hdom, ?_⟩
  intro el hel hm
  rw [hdom] at hel
  exact className_of_mem_map_markIndicator true w.dom el hel hm

/-- C5: when the health call fails (the fetch rejects, or the body does not
parse as JSON), the document after `checkApiHealth` is the old one with the
class string of every `.status-indicator` element replaced by
`status-indicator status-offline`; the promise chain ends fulfilled, and
`checkApiHealth` returns normally. -/
theorem checkApiHealth_failure_marks_offline (net : Network) (w : World)
    (hfail : (∃ reason, net "/api/v1/accounts/health/" JSValue.undefined = .error reason)
      ∨ (∃ response reason,
          net "/api/v1/accounts/health/" JSValue.undefined = .ok response
          ∧ response.json = .error reason)) :
    (checkApiHealth net w).2.dom
      = w.dom.map (fun el =>
          if matchesClass "status-indicator" el
          then { el with className := "status-indicator status-offline" }
          else el)
    ∧ (∀ el ∈ (checkApiHealth net w).2.dom,
        matchesClass "status-indicator" el = true →
          el.className = "status-indicator status-offline")
    ∧ (checkApiHealthChain net w).1 = .ok JSValue.undefined
    ∧ (checkApiHealth net w).1 = .ok JSValue.undefined := by
  have hs : healthSucceeded net = false := by
    rcases hfail with ⟨reason, h⟩ | ⟨response, reason, h, hj⟩
    · simp [healthSucceeded, h]
    · simp [healthSucceeded, h, hj]
  have hdom := checkApiHealth_dom net w
  rw [hs] at hdom
  refine ⟨hdom, ?_, ?_, rfl⟩
  · intro el hel hm
    rw [hdom] at hel
    exact className_of_mem_map_markIndicator false w.dom el hel hm
  · unfold checkApiHealthChain catchP thenP fetch Response.jsonTask
    rcases hfail with ⟨reason, h⟩ | ⟨response, reason, h, hj⟩
    · simp [h]
    · simp [h, hj]

/-- C6: in the configuration that `request` hands to `fetch`, every key of
the caller's options holds the caller's value, and every key of the caller's
`headers` holds the caller's header value in the `headers` sent. -/
theorem request_caller_wins (net : Network) (e : String) (options : JSValue) (w : World)
    (call : FetchCall)
    (hcall : (request net e options w).2.fetched = w.fetched ++ [call]) :
    (∀ key v, getOwn options key = some v → getOwn call.config key = some v)
    ∧ (∀ headers key v,
        getOwn options "headers" = some headers → getOwn headers key = some v →
          ∃ sent, getOwn call.config "headers" = some sent ∧ getOwn sent key = some v) := by
  have hcfg := (request_fetched_inv net e options w call hcall).1
  have hkey : ∀ key v, getOwn options key = some v → getOwn call.config key = some v := by
    intro key v hv
    rw [getOwn_requestConfig _ _ hcfg key, getOwn_optionsOrDefault, hv]
  refine ⟨hkey, ?_⟩
  intro headers key v hh hv
  exact ⟨headers, hkey "headers" headers hh, hv⟩

/-- C7: once `request` has built its configuration, its result is the
rejection reason of `fetch` if `fetch` rejects, the rejection reason of
`response.json()` if the parse fails, and the parsed value if both succeed,
for a response of any status; the same holds for `get` and `post`, which call
`request` with their own configuration. -/
theorem request_propagates (net : Network) (e : String) (options config : JSValue) (w : World)
    (hcfg : requestConfig (optionsOrDefault options) = .ok config) :
    (∀ reason, net (baseUrl ++ e) config = .error reason →
        (request net e options w).1 = .error reason)
    ∧ (∀ response reason, net (baseUrl ++ e) config = .ok response →
        response.json = .error reason → (request net e options w).1 = .error reason)
    ∧ (∀ response value, net (baseUrl ++ e) config = .ok response →
        response.json = .ok value → (request net e options w).1 = .ok value)
    ∧ (get net e w).1
        = (match net (baseUrl ++ e)
              (.obj [("headers", .obj [("Content-Type", .str "application/json")])]) with
           | .error reason => .error reason
           | .ok response => response.json)
    ∧ (∀ data, (post net e data w).1
        = (match net (baseUrl ++ e)
              (.obj [("headers", .obj [("Content-Type", .str "application/json")]),
                     ("method", .str "POST"),
                     ("body", JSON_stringify data)]) with
           | .error reason => .error reason
           | .ok response => response.json)) := by
  have hrun := (request_run net e options config w hcfg).2
  refine ⟨?_, ?_, ?_, ?_, ?_⟩
  · intro reason h
    rw [hrun, h]
  · intro response reason h hj
    rw [hrun, h]
    exact hj
  · intro response value h hj
    rw [hrun, h]
    exact hj
  · exact (request_run net e .undefined
      (.obj [("headers", .obj [("Content-Type", .str "application/json")])]) w rfl).2
  · intro data
    exact (request_run net e
      (.obj [("method", .str "POST"), ("body", JSON_stringify data)])
      (.obj [("headers", .obj [("Content-Type", .str "application/json")]),
             ("method", .str "POST"),
             ("body", JSON_stringify data)]) w rfl).2

/-- C9: the document after `checkApiHealth` does not depend on the status code
or on the JSON value: a response of non-2xx status whose body parses leaves
every `.status-indicator` element with class `status-indicator status-online`,
and any other network whose health call resolves and parses gives the same
document. -/
theorem checkApiHealth_ignores_status (net : Network) (w : World)
    (response : Response) (data : JSValue)
    (hfetch : net "/api/v1/accounts/health/" JSValue.undefined = .ok response)
    (hjson : response.json = .ok data)
    (_hstatus : response.status < 200 ∨ 299 < response.status) :
    (∀ el ∈ (checkApiHealth net w).2.dom,
        matchesClass "status-indicator" el = true →
          el.className = "status-indicator status-online")
    ∧ (∀ other : Network, healthSucceeded other = true →
        (checkApiHealth other w).2.dom = (checkApiHealth net w).2.dom)
    ∧ (∀ other : Network, healthSucceeded other = false →
        (checkApiHealth other w).2.dom
          = w.dom.map (fun el =>
              if matchesClass "status-indicator" el
              then { el with className := "status-indicator status-offline" }
              else el)) := by
  have hs : healthSucceeded net = true := by
    simp [healthSucceeded, hfetch, hjson]
  have hdom := checkApiHealth_dom net w
  rw [hs] at hdom
  refine ⟨?_, ?_, ?_⟩
  · intro el hel hm
    rw [hdom] at hel
    exact className_of_mem_map_markIndicator true w.dom el hel hm
  · intro other ho
    rw [hdom, checkApiHealth_dom other w, ho]
  · intro other ho
    have h := checkApiHealth_dom other w
    rw [ho] at h
    exact h

/-- C10: in the configuration that `request` hands to `fetch`, when the
options have their own `headers` key the `headers` sent is exactly the
caller's value, so it holds `Content-Type` only as far as the caller's value
does; when the options have no `headers` key the `headers` sent is the object
holding the default `'Content-Type': 'application/json'`. -/
theorem request_headers_overwritten (net : Network) (e : String) (options : JSValue) (w : World)
    (call : FetchCall)
    (hcall : (request net e options w).2.fetched = w.fetched ++ [call]) :
    (∀ headers, getOwn options "headers" = some headers →
        getOwn call.config "headers" = some headers)
    ∧ (∀ headers sent, getOwn options "headers" = some headers →
        getOwn call.config "headers" = some sent →
          getOwn sent "Content-Type" = getOwn headers "Content-Type")
    ∧ (getOwn options "headers" = none →
        getOwn call.config "headers"
          = some (.obj [("Content-Type", .str "application/json")])) := by
  have hcfg := (request_fetched_inv net e options w call hcall).1
  have hkey := getOwn_requestConfig _ _ hcfg "headers"
  rw [getOwn_optionsOrDefault] at hkey
  refine ⟨?_, ?_, ?_⟩
  · intro headers hh
    rw [hkey, hh]
  · intro headers sent hh hs
    rw [hkey, hh] at hs
    cases hs
    rfl
  · intro hnone
    rw [hkey, hnone]
    rfl

/-! ## The claims on sample data -/

theorem request_default_headers_witness :
    ((JSValue.obj [("method", .str "GET")]) = .undefined
      ∨ ∃ props, (JSValue.obj [("method", .str "GET")]) = .obj props
          ∧ getOwnProperty props "headers" = none)
    ∧ (∃ config headers,
        (request offlineNet "/bids" (.obj [("method", .str "GET")]) sampleWorld).2.fetched
          = sampleWorld.fetched ++ [FetchCall.mk ("/api/v1" ++ "/bids") config]
        ∧ getOwn config "headers" = some headers
        ∧ getOwn headers "Content-Type" = some (.str "application/json"))
    ∧ (request offlineNet "/bids" (.obj [("method", .str "GET")]) sampleWorld).2.fetched
        = [FetchCall.mk "/api/v1/bids"
            (.obj [("headers", .obj [("Content-Type", .str "application/json")]),
                   ("method", .str "GET")])] :=
  ⟨Or.inr ⟨_, rfl, rfl⟩,
   (request_default_headers offlineNet "/bids" (.obj [("method", .str "GET")]) sampleWorld
      (Or.inr ⟨_, rfl, rfl⟩)).1,
   rfl⟩

theorem checkApiHealth_success_marks_online_witness :
    healthyNet "/api/v1/accounts/health/" JSValue.undefined = .ok healthyResponse
    ∧ healthyResponse.json = .ok (.obj [("status", .str "healthy")])
    ∧ ((checkApiHealth healthyNet sampleWorld).2.dom
        = sampleWorld.dom.map (fun el =>
            if matchesClass "status-indicator" el
            then { el with className := "status-indicator status-online" }
            else el)
      ∧ ∀ el ∈ (checkApiHealth healthyNet sampleWorld).2.dom,
          matchesClass "status-indicator" el = true →
            el.className = "status-indicator status-online")
    ∧ (checkApiHealth healthyNet sampleWorld).2.dom
        = [Element.mk "span" "api-status" "status-indicator status-online",
           Element.mk "div" "main" "container",
           Element.mk "span" "badge" "status-indicator status-online"] :=
  ⟨rfl, rfl,
   checkApiHealth_success_marks_online healthyNet sampleWorld healthyResponse
     (.obj [("status", .str "healthy")]) rfl rfl,
   by decide⟩

theorem checkApiHealth_failure_marks_offline_witness :
    ((∃ reason, offlineNet "/api/v1/accounts/health/" JSValue.undefined = .error reason)
      ∨ (∃ response reason,
          offlineNet "/api/v1/accounts/health/" JSValue.undefined = .ok response
          ∧ response.json = .error reason))
    ∧ ((checkApiHealth offlineNet sampleWorld).2.dom
        = sampleWorld.dom.map (fun el =>
            if matchesClass "status-indicator" el
            then { el with className := "status-indicator status-offline" }
            else el)
      ∧ (∀ el ∈ (checkApiHealth offlineNet sampleWorld).2.dom,
          matchesClass "status-indicator" el = true →
            el.className = "status-indicator status-offline")
      ∧ (checkApiHealthChain offlineNet sampleWorld).1 = .ok JSValue.undefined
      ∧ (checkApiHealth offlineNet sampleWorld).1 = .ok JSValue.undefined)
    ∧ (checkApiHealth badGatewayNet sampleWorld).2.dom
        = [Element.mk "span" "api-status" "status-indicator status-offline",
           Element.mk "div" "main" "container",
           Element.mk "span" "badge" "status-indicator status-offline"] :=
  ⟨Or.inl ⟨_, rfl⟩,
   checkApiHealth_failure_marks_offline offlineNet sampleWorld (Or.inl ⟨_, rfl⟩),
   by decide⟩

theorem request_caller_wins_witness :
    (request offlineNet "/bids"
        (.obj [("headers", .obj [("Content-Type", .str "text/plain")]),
               ("method", .str "PUT")]) sampleWorld).2.fetched
      = sampleWorld.fetched ++
          [FetchCall.mk "/api/v1/bids"
            (.obj [("headers", .obj [("Content-Type", .str "text/plain")]),
                   ("method", .str "PUT")])]
    ∧ getOwn (.obj [("headers", .obj [("Content-Type", .str "text/plain")]),
                    ("method", .str "PUT")]) "method" = some (.str "PUT")
    ∧ ∃ sent,
        getOwn (.obj [("headers", .obj [("Content-Type", .str "text/plain")]),
                      ("method", .str "PUT")]) "headers" = some sent
        ∧ getOwn sent "Content-Type" = some (.str "text/plain") :=
  ⟨rfl,
   (request_caller_wins offlineNet "/bids"
      (.obj [("headers", .obj [("Content-Type", .str "text/plain")]),
             ("method", .str "PUT")]) sampleWorld
      (FetchCall.mk "/api/v1/bids"
        (.obj [("headers", .obj [("Content-Type", .str "text/plain")]),
               ("method", .str "PUT")])) rfl).1 "method" (.str "PUT") rfl,
   (request_caller_wins offlineNet "/bids"
      (.obj [("headers", .obj [("Content-Type", .str "text/plain")]),
             ("method", .str "PUT")]) sampleWorld
      (FetchCall.mk "/api/v1/bids"
        (.obj [("headers", .obj [("Content-Type", .str "text/plain")]),
               ("method", .str "PUT")])) rfl).2
      (.obj [("Content-Type", .str "text/plain")]) "Content-Type" (.str "text/plain") rfl rfl⟩

theorem request_propagates_witness :
    requestConfig (optionsOrDefault .undefined)
      = .ok (.obj [("headers", .obj [("Content-Type", .str "application/json")])])
    ∧ (request serverErrorNet "/bids" .undefined sampleWorld).1
        = .ok (.obj [("detail", .str "Server Error")])
    ∧ (request badGatewayNet "/bids" .undefined sampleWorld).1 = .error (.err "SyntaxError")
    ∧ (request offlineNet "/bids" .undefined sampleWorld).1 = .error (.err "TypeError") :=
  ⟨rfl,
   (request_propagates serverErrorNet "/bids" .undefined
      (.obj [("headers", .obj [("Content-Type", .str "application/json")])]) sampleWorld
      rfl).2.2.1 serverErrorResponse (.obj [("detail", .str "Server Error")]) rfl rfl,
   (request_propagates badGatewayNet "/bids" .undefined
      (.obj [("headers", .obj [("Content-Type", .str "application/json")])]) sampleWorld
      rfl).2.1 badGatewayResponse (.err "SyntaxError") rfl rfl,
   (request_propagates offlineNet "/bids" .undefined
      (.obj [("headers", .obj [("Content-Type", .str "application/json")])]) sampleWorld
      rfl).1 (.err "TypeError") rfl⟩

theorem checkApiHealth_ignores_status_witness :
    serverErrorNet "/api/v1/accounts/health/" JSValue.undefined = .ok serverErrorResponse
    ∧ serverErrorResponse.json = .ok (.obj [("detail", .str "Server Error")])
    ∧ (serverErrorResponse.status < 200 ∨ 299 < serverErrorResponse.status)
    ∧ (∀ el ∈ (checkApiHealth serverErrorNet sampleWorld).2.dom,
        matchesClass "status-indicator" el = true →
          el.className = "status-indicator status-online")
    ∧ (checkApiHealth healthyNet sampleWorld).2.dom
        = (checkApiHealth serverErrorNet sampleWorld).2.dom
    ∧ (checkApiHealth serverErrorNet sampleWorld).2.dom
        = [Element.mk "span" "api-status" "status-indicator status-online",
           Element.mk "div" "main" "container",
           Element.mk "span" "badge" "status-indicator status-online"] :=
  ⟨rfl, rfl, Or.inr (by decide),
   (checkApiHealth_ignores_status serverErrorNet sampleWorld serverErrorResponse
      (.obj [("detail", .str "Server Error")]) rfl rfl (Or.inr (by decide))).1,
   (checkApiHealth_ignores_status serverErrorNet sampleWorld serverErrorResponse
      (.obj [("detail", .str "Server Error")]) rfl rfl (Or.inr (by decide))).2.1
      healthyNet rfl,
   by decide⟩

theorem request_headers_overwritten_witness :
    (request offlineNet "/x"
        (.obj [("headers", .obj [("Authorization", .str "A")])]) sampleWorld).2.fetched
      = sampleWorld.fetched ++
          [FetchCall.mk "/api/v1/x" (.obj [("headers", .obj [("Authorization", .str "A")])])]
    ∧ getOwn (.obj [("headers", .obj [("Authorization", .str "A")])]) "headers"
        = some (.obj [("Authorization", .str "A")])
    ∧ (request offlineNet "/x" (.obj [("method", .str "GET")]) sampleWorld).2.fetched
      = sampleWorld.fetched ++
          [FetchCall.mk "/api/v1/x"
            (.obj [("headers", .obj [("Content-Type", .str "application/json")]),
                   ("method", .str "GET")])]
    ∧ getOwn (.obj [("headers", .obj [("Content-Type", .str "application/json")]),
                    ("method", .str "GET")]) "headers"
        = some (.obj [("Content-Type", .str "application/json")]) :=
  ⟨rfl,
   (request_headers_overwritten offlineNet "/x"
      (.obj [("headers", .obj [("Authorization", .str "A")])]) sampleWorld
      (FetchCall.mk "/api/v1/x" (.obj [("headers", .obj [("Authorization", .str "A")])]))
      rfl).1 (.obj [("Authorization", .str "A")]) rfl,
   rfl,
   (request_headers_overwritten offlineNet "/x"
      (.obj [("method", .str "GET")]) sampleWorld
      (FetchCall.mk "/api/v1/x"
        (.obj [("headers", .obj [("Content-Type", .str "application/json")]),
               ("method", .str "GET")]))
      rfl).2.2 rfl⟩
